import Mathlib

/-!
Verification development for the Genyu repository's DOP learning subsystem
(src/SUPABASE_SCHEMA.sql: tables dop_prompt_records and dop_model_learnings,
SQL functions search_similar_prompts and get_model_best_keywords) and the
image-editor history container (useImageEditor, addToHistory).

Embeddings are float arrays in the source; they are modelled as lists of real
numbers, with pgvector's cosine-distance operator rendered as the exact
real-valued cosine distance.  REAL score columns are modelled as rationals
(floating-point inputs are rationals) so that the store machinery stays
executable; only the cosine/similarity pipeline needs real numbers.
-/

namespace Genyu

/-- Dot product of two real vectors, zipping componentwise
(extra components of a longer vector are ignored, as both vectors
always have the same dimension in the source). -/
def dot : List ℝ → List ℝ → ℝ
  | a :: as, b :: bs => a * b + dot as bs
  | _, _ => 0

/-- pgvector's cosine-distance operator (the SQL operator used at
SUPABASE_SCHEMA.sql:258 and :266-267): 1 minus the cosine of the angle
between the two vectors. -/
noncomputable def cosineDistance (a b : List ℝ) : ℝ :=
  1 - dot a b / (Real.sqrt (dot a a) * Real.sqrt (dot b b))

/-- The similarity value computed by search_similar_prompts
(SUPABASE_SCHEMA.sql:258): 1 - (embedding <=> query_embedding). -/
noncomputable def similarity (a b : List ℝ) : ℝ :=
  1 - cosineDistance a b

/-- A row of the dop_prompt_records table (SUPABASE_SCHEMA.sql:166-197).
The UUID primary key is modelled as a natural number, timestamps as
integers.  NOT NULL columns are non-optional fields; nullable columns are
options.  The CHECK constraint on mode and the vector(768) dimensionality
are captured by the row-validity predicate below, as SQL CHECKs are not
part of the row type. -/
structure PromptRecord where
  id : Nat
  user_id : Option Nat
  original_prompt : String
  normalized_prompt : String
  embedding : Option (List ℝ)
  model_id : String
  model_type : String
  mode : String
  aspect_ratio : String
  quality_score : Option ℚ
  full_body_score : Option ℚ
  background_score : Option ℚ
  face_clarity_score : Option ℚ
  match_score : Option ℚ
  was_approved : Bool
  was_retried : Bool
  retry_count : Nat
  created_at : Int
  keywords : List String
  tags : List String

/-- The WHERE clause of search_similar_prompts (SUPABASE_SCHEMA.sql:260-266):
approved, quality floor 0.7, optional exact-match model_type / mode filters,
non-null embedding, and caller-supplied similarity threshold.  A NULL
quality_score fails the SQL comparison `quality_score >= 0.7`, hence the
existential. -/
def eligible (query : List ℝ) (match_model_type match_mode : Option String)
    (similarity_threshold : ℝ) (r : PromptRecord) : Prop :=
  r.was_approved = true ∧
  (∃ q, r.quality_score = some q ∧ (7 / 10 : ℚ) ≤ q) ∧
  (match_model_type = none ∨ match_model_type = some r.model_type) ∧
  (match_mode = none ∨ match_mode = some r.mode) ∧
  r.embedding ≠ none ∧
  (∃ e, r.embedding = some e ∧ similarity_threshold ≤ similarity e query)

/-- Default value of the match_count parameter of search_similar_prompts
(SUPABASE_SCHEMA.sql:235). -/
def match_count_default : Nat := 5

/-- Default value of the similarity_threshold parameter of
search_similar_prompts (SUPABASE_SCHEMA.sql:236). -/
noncomputable def similarity_threshold_default : ℝ := 0.7

open scoped Classical in
/-- The search_similar_prompts SQL function (SUPABASE_SCHEMA.sql:231-270):
filter the stored records by the WHERE clause, order by cosine distance to
the query ascending - equivalently by similarity descending - and truncate
to match_count rows.  The SQL projects a subset of the columns plus the
similarity; here each result keeps the whole record paired with its
similarity, which carries strictly more information and is what the spec's
contract (section 4.2) describes.  SQL leaves the relative order of
distance ties unspecified; the model resolves ties by the scan (storage)
order of the table, using a stable sort. -/
noncomputable def search_similar_prompts (records : List PromptRecord)
    (query_embedding : List ℝ) (match_model_type match_mode : Option String)
    (match_count : Nat) (similarity_threshold : ℝ) :
    List (PromptRecord × ℝ) :=
  (List.insertionSort (fun p q : PromptRecord × ℝ => q.2 ≤ p.2)
    ((records.filter (fun r =>
        decide (eligible query_embedding match_model_type match_mode
          similarity_threshold r))).map
      (fun r => (r, similarity (r.embedding.getD []) query_embedding)))).take
    match_count

/-- A row of the dop_model_learnings table (SUPABASE_SCHEMA.sql:211-228).
The JSONB histograms (aspect ratio and keyword frequencies) are modelled as
association lists in the stored key order of the JSONB value; model_type is
the unique key.  REAL statistics are modelled as exact rationals. -/
structure ModelLearning where
  id : Nat
  model_type : String
  total_generations : Nat
  approved_count : Nat
  avg_quality_score : ℚ
  approval_rate : ℚ
  best_aspect_ratios : List (String × Int)
  common_keywords : List (String × Int)
  successful_patterns : List String
deriving DecidableEq

/-- The get_model_best_keywords SQL function (SUPABASE_SCHEMA.sql:273-295):
expand the keyword histogram of the learning rows whose model_type matches
the target (there is at most one, model_type being UNIQUE) into
(keyword, frequency) pairs, order by frequency descending and truncate to
keyword_limit.  The SQL orders only by frequency; ties are left in the
histogram's stored key order, modelled with a stable sort. -/
def get_model_best_keywords (learnings : List ModelLearning)
    (target_model_type : String) (keyword_limit : Nat) : List (String × Int) :=
  (List.insertionSort (fun p q : String × Int => q.2 ≤ p.2)
    (((learnings.filter (fun l => l.model_type == target_model_type)).map
      (fun l => l.common_keywords)).flatten)).take keyword_limit

/-- The error kinds of the store contract (spec section 7) that the core
itself can raise. -/
inductive DopError where
  | validationError
  | notFoundError
deriving DecidableEq

/-- Modelled from the spec: the PromptRecordDraft passed to append
(section 4.1).  A draft carries the content and context columns of
dop_prompt_records; the id is store-generated (UUID default), the status
flags and the quality scores start at their column defaults. -/
structure PromptRecordDraft where
  user_id : Option Nat
  original_prompt : String
  normalized_prompt : String
  embedding : Option (List ℝ)
  model_id : String
  model_type : String
  mode : String
  aspect_ratio : String
  created_at : Int
  keywords : List String
  tags : List String

/-- The mode CHECK constraint of dop_prompt_records
(SUPABASE_SCHEMA.sql:178): mode IN ('character', 'scene'). -/
def modeValid (m : String) : Bool :=
  m == "character" || m == "scene"

/-- Row validity for dop_prompt_records: the mode CHECK constraint plus the
vector(768) dimensionality of the embedding column
(SUPABASE_SCHEMA.sql:173,178).  The column is nullable, so a missing
embedding is valid; the five REAL score columns carry no constraint in the
schema. -/
def draftValid (d : PromptRecordDraft) : Bool :=
  modeValid d.mode &&
    (match d.embedding with
     | none => true
     | some e => e.length == 768)

/-- The evaluation scores written by update_evaluation (spec section 4.1):
the five REAL score columns of dop_prompt_records. -/
structure EvalScores where
  quality_score : Option ℚ
  full_body_score : Option ℚ
  background_score : Option ℚ
  face_clarity_score : Option ℚ
  match_score : Option ℚ

/-- The state of the DOP learning subsystem: the two tables plus the
store-side id generator standing in for gen_random_uuid(). -/
structure DopState where
  nextId : Nat
  records : List PromptRecord
  learnings : List ModelLearning

/-- The empty store. -/
def initState : DopState := ⟨0, [], []⟩

/-- A fresh ModelLearning row with the column defaults of
dop_model_learnings (SUPABASE_SCHEMA.sql:211-228). -/
def emptyLearning (id : Nat) (m : String) : ModelLearning :=
  { id := id, model_type := m, total_generations := 0, approved_count := 0,
    avg_quality_score := 0, approval_rate := 0, best_aspect_ratios := [],
    common_keywords := [], successful_patterns := [] }

/-- Modelled from the spec: the aggregator's on_record_created hook
(section 4.3) - upsert the ModelLearning row of the record's model type and
increment total_generations, independent of approval.  The aggregator
update code is client code absent from src/. -/
def bumpCreated : List ModelLearning → String → List ModelLearning
  | [], m => [{ emptyLearning 0 m with total_generations := 1 }]
  | l :: ls, m =>
    if l.model_type == m then
      { l with total_generations := l.total_generations + 1 } :: ls
    else
      l :: bumpCreated ls m

/-- Increment-on-observe histogram update (spec section 4.3): bump the
count of one key, appending the key with count 1 on first sight. -/
def bumpHistogram : List (String × Int) → String → List (String × Int)
  | [], k => [(k, 1)]
  | (k', n) :: t, k =>
    if k' == k then (k', n + 1) :: t else (k', n) :: bumpHistogram t k

/-- Modelled from the spec: the per-learning delta of one approval event
(section 4.3) - approved_count up by one, average quality recomputed
exactly over the rationals, approval rate re-derived (0 if
total_generations is 0), both histograms incremented, successful_patterns
recomputed as the top-50 keywords by frequency. -/
def applyApproval (l : ModelLearning) (r : PromptRecord) : ModelLearning :=
  { l with
    approved_count := l.approved_count + 1,
    avg_quality_score :=
      (l.avg_quality_score * l.approved_count + (r.quality_score.getD 0)) /
        (l.approved_count + 1),
    approval_rate :=
      if l.total_generations = 0 then 0
      else ((l.approved_count : ℚ) + 1) / l.total_generations,
    best_aspect_ratios := bumpHistogram l.best_aspect_ratios r.aspect_ratio,
    common_keywords := r.keywords.foldl bumpHistogram l.common_keywords,
    successful_patterns :=
      ((List.insertionSort (fun p q : String × Int => q.2 ≤ p.2)
        (r.keywords.foldl bumpHistogram l.common_keywords)).take 50).map
        (fun p => p.1) }

/-- Modelled from the spec: the aggregator's on_record_approved hook
(section 4.3) - upsert the ModelLearning row of the approved record's model
type and apply the approval delta.  The aggregator update code is client
code absent from src/. -/
def bumpApproved : List ModelLearning → PromptRecord → List ModelLearning
  | [], r => applyApproval (emptyLearning 0 r.model_type) r
    :: []
  | l :: ls, r =>
    if l.model_type == r.model_type then
      applyApproval l r :: ls
    else
      l :: bumpApproved ls r

/-- The row inserted for a draft: fresh store-generated id, scores null
and was_approved false (the column defaults of dop_prompt_records, spec
section 3 lifecycle). -/
def draftRecord (s : DopState) (d : PromptRecordDraft) : PromptRecord :=
  { id := s.nextId, user_id := d.user_id,
    original_prompt := d.original_prompt,
    normalized_prompt := d.normalized_prompt,
    embedding := d.embedding, model_id := d.model_id,
    model_type := d.model_type, mode := d.mode,
    aspect_ratio := d.aspect_ratio, quality_score := none,
    full_body_score := none, background_score := none,
    face_clarity_score := none, match_score := none,
    was_approved := false, was_retried := false,
    retry_count := 0, created_at := d.created_at,
    keywords := d.keywords, tags := d.tags }

/-- Modelled from the spec: append (section 4.1).  Validation is the row
validity of the dop_prompt_records DDL (embedding dimensionality and the
mode CHECK); a valid draft is inserted as its draftRecord row and the
aggregator's created hook fires; an invalid draft fails with
ValidationError.  The append client code is absent from src/. -/
def append (s : DopState) (d : PromptRecordDraft) :
    Except DopError DopState :=
  if draftValid d then
    .ok { nextId := s.nextId + 1,
          records := s.records ++ [draftRecord s d],
          learnings := bumpCreated s.learnings d.model_type }
  else
    .error .validationError

/-- Write the evaluation columns onto a record.  Modelled from the spec:
approval is a one-way transition (section 3 lifecycle: the record
"transitions to approved"; nothing un-approves a record), so the stored
flag is the disjunction of the old flag and the new one. -/
def applyEval (r : PromptRecord) (sc : EvalScores) (approved : Bool) :
    PromptRecord :=
  { r with
    quality_score := sc.quality_score,
    full_body_score := sc.full_body_score,
    background_score := sc.background_score,
    face_clarity_score := sc.face_clarity_score,
    match_score := sc.match_score,
    was_approved := r.was_approved || approved }

/-- Replace the first record carrying the given id. -/
def updateFirst (f : PromptRecord → PromptRecord) :
    List PromptRecord → Nat → List PromptRecord
  | [], _ => []
  | r :: t, i => if r.id == i then f r :: t else r :: updateFirst f t i

/-- Modelled from the spec: update_evaluation (section 4.1) - set the
quality fields and the approval flag of an existing record, failing with
NotFoundError on an unknown id; when the record transitions from
unapproved to approved, the aggregator's approved hook fires atomically
with the record update (section 7).  Per section 4.1 the operation performs
no validation beyond the id lookup.  The evaluation client code is absent
from src/. -/
def update_evaluation (s : DopState) (i : Nat) (sc : EvalScores)
    (approved : Bool) : Except DopError DopState :=
  match s.records.find? (fun r => r.id == i) with
  | none => .error .notFoundError
  | some r₀ =>
    .ok { s with
          records := updateFirst (fun r => applyEval r sc approved)
            s.records i,
          learnings :=
            if approved && !r₀.was_approved then
              bumpApproved s.learnings (applyEval r₀ sc approved)
            else s.learnings }

/-- The two aggregate-relevant lifecycle events of a PromptRecord
(spec sections 3 and 4.3). -/
inductive DopEvent where
  | created (d : PromptRecordDraft)
  | approved (i : Nat) (sc : EvalScores) (flag : Bool)

/-- One event applied to the store; a failing operation leaves the state
unchanged (spec section 7: failures must not partially apply). -/
def stepEvent (s : DopState) : DopEvent → DopState
  | .created d =>
    match append s d with
    | .ok s' => s'
    | .error _ => s
  | .approved i sc flag =>
    match update_evaluation s i sc flag with
    | .ok s' => s'
    | .error _ => s

/-- Run a sequence of lifecycle events from the empty store. -/
def runEvents (es : List DopEvent) : DopState :=
  es.foldl stepEvent initState

/-- The total_generations counter of the ModelLearning aggregate of one
model type (summed over matching rows; model_type is UNIQUE so at most one
row matches). -/
def totalOf : List ModelLearning → String → Nat
  | [], _ => 0
  | l :: ls, m =>
    (if l.model_type == m then l.total_generations else 0) + totalOf ls m

/-- The approved_count counter of the ModelLearning aggregate of one model
type. -/
def approvedOf : List ModelLearning → String → Nat
  | [], _ => 0
  | l :: ls, m =>
    (if l.model_type == m then l.approved_count else 0) + approvedOf ls m

/-- The number of stored records of one model type. -/
def countRecords : List PromptRecord → String → Nat
  | [], _ => 0
  | r :: rs, m =>
    (if r.model_type == m then 1 else 0) + countRecords rs m

/-- The number of stored approved records of one model type. -/
def countApprovedRecords : List PromptRecord → String → Nat
  | [], _ => 0
  | r :: rs, m =>
    (if r.model_type == m && r.was_approved then 1 else 0) +
      countApprovedRecords rs m

/-- The read operation behind get_best_keywords in the spec's contract
(section 4.3): it is read-only, returning the keyword ranking together
with the untouched store. -/
def get_best_keywords_op (s : DopState) (target : String) (limit : Nat) :
    List (String × Int) × DopState :=
  (get_model_best_keywords s.learnings target limit, s)

/-! ### Image-editor history (src/unnamed/part_001, useImageEditor) -/

/-- An EditorImage as used by the history list of useImageEditor; the
source/prompt metadata is irrelevant to the history bound and is folded
into the image payload. -/
structure EditorImage where
  id : Nat
  image : String
  createdAt : Int
deriving DecidableEq

/-- JavaScript's array.slice(-n): the last n elements. -/
def sliceLast (n : Nat) (l : List EditorImage) : List EditorImage :=
  l.drop (l.length - n)

/-- addToHistory (src/unnamed/part_001:537-542):
history becomes [...prev.history, image].slice(-50). -/
def addToHistory (history : List EditorImage) (image : EditorImage) :
    List EditorImage :=
  sliceLast 50 (history ++ [image])

/-- clearHistory (src/unnamed/part_001:544-549): history becomes []. -/
def clearHistory (_history : List EditorImage) : List EditorImage := []

/-- The history effect of onEditorSave (src/unnamed/part_001:555-574): when
a current image is open, a re-keyed copy carrying the edited payload is
pushed through addToHistory; otherwise the history is untouched
(closeEditor does not touch the history). -/
def onEditorSaveHistory (history : List EditorImage)
    (currentImage : Option EditorImage) (editedImage : String)
    (newId : Nat) (now : Int) : List EditorImage :=
  match currentImage with
  | some img =>
    addToHistory history { img with id := newId, image := editedImage,
                                    createdAt := now }
  | none => history

/-- The three operations that can touch the editor history. -/
inductive EditorEvent where
  | add (img : EditorImage)
  | clear
  | save (currentImage : Option EditorImage) (editedImage : String)
      (newId : Nat) (now : Int)

/-- One editor operation applied to the history. -/
def stepEditor (h : List EditorImage) : EditorEvent → List EditorImage
  | .add img => addToHistory h img
  | .clear => clearHistory h
  | .save c e i t => onEditorSaveHistory h c e i t

/-- Run a sequence of editor operations from the initial state
(src/unnamed/part_001:398: history starts as []). -/
def runEditor (es : List EditorEvent) : List EditorImage :=
  es.foldl stepEditor []

/-! ### Claim-level order predicates -/

/-- The tie-break order claimed for search results: any two results with
identical similarity appear ordered by earliest creation time first. -/
def tiesByEarliestCreation (l : List (PromptRecord × ℝ)) : Prop :=
  l.Pairwise (fun p q => p.2 = q.2 → p.1.created_at ≤ q.1.created_at)

/-- The keyword order claimed for get_best_keywords: frequency descending,
ties broken lexicographically by keyword. -/
def keywordOrderLexTies (l : List (String × Int)) : Prop :=
  l.Pairwise (fun p q => q.2 < p.2 ∨ (p.2 = q.2 ∧ p.1 ≤ q.1))

/-! ### Concrete sample data for counterexamples and witnesses -/

/-- An eligible record stored first in the table but created later
(created_at 5). -/
def sampleLate : PromptRecord :=
  { id := 0, user_id := none, original_prompt := "a",
    normalized_prompt := "a", embedding := some [1], model_id := "m1",
    model_type := "m", mode := "scene", aspect_ratio := "16:9",
    quality_score := some 1, full_body_score := none,
    background_score := none, face_clarity_score := none,
    match_score := none, was_approved := true, was_retried := false,
    retry_count := 0, created_at := 5, keywords := [], tags := [] }

/-- An eligible record stored second in the table but created earlier
(created_at 3), with the same embedding as sampleLate. -/
def sampleEarly : PromptRecord :=
  { sampleLate with id := 1, created_at := 3 }

/-- An eligible record whose embedding is orthogonal to the query [0, 1]
used in the empty-search witness. -/
def sampleOrthogonal : PromptRecord :=
  { sampleLate with id := 2, embedding := some [1, 0] }

/-- A ModelLearning row whose keyword histogram holds two keys of equal
frequency in JSONB storage order (shorter key first): frequency ties are
returned in that order, which is not lexicographic. -/
def sampleTieLearning : ModelLearning :=
  { id := 0, model_type := "m", total_generations := 2,
    approved_count := 2, avg_quality_score := 1, approval_rate := 1,
    best_aspect_ratios := [], common_keywords := [("b", 5), ("aa", 5)],
    successful_patterns := [] }

/-- A draft whose embedding has 512 components instead of 768. -/
def sampleDraft512 : PromptRecordDraft :=
  { user_id := none, original_prompt := "p", normalized_prompt := "p",
    embedding := some (List.replicate 512 0), model_id := "m1",
    model_type := "m", mode := "character", aspect_ratio := "16:9",
    created_at := 0, keywords := [], tags := [] }

/-- A valid draft with no embedding (the column is nullable). -/
def sampleDraftOk : PromptRecordDraft :=
  { sampleDraft512 with embedding := none }

/-- An evaluation carrying an out-of-range quality score of 1.5. -/
def sampleBadScores : EvalScores :=
  { quality_score := some (3 / 2), full_body_score := none,
    background_score := none, face_clarity_score := none,
    match_score := none }

/-- A sample editor image. -/
def sampleImageA : EditorImage := ⟨0, "a", 0⟩

/-- Another sample editor image. -/
def sampleImageB : EditorImage := ⟨1, "b", 1⟩

/-! ### Helper lemmas -/

lemma dot_cons (a b : ℝ) (as bs : List ℝ) :
    dot (a :: as) (b :: bs) = a * b + dot as bs := rfl

lemma dot_nil : dot [] [] = 0 := rfl

lemma dot_self_nonneg (e : List ℝ) : 0 ≤ dot e e := by
  induction e with
  | nil => exact le_refl 0
  | cons a t ih =>
    rw [dot_cons]
    exact add_nonneg (mul_self_nonneg a) ih

lemma dot_replicate_zero (n : Nat) :
    dot (List.replicate n (0:ℝ)) (List.replicate n 0) = 0 := by
  induction n with
  | zero => rfl
  | succ k ih =>
    rw [List.replicate_succ, dot_cons, ih]
    ring

/-! ### C4: self-similarity -/

/-- C4 (amended): for every embedding e of the configured 768
dimensionality whose dot product with itself is nonzero, the similarity
computed by the search engine between e and itself equals 1, where
similarity(a, b) = 1 - cosine_distance(a, b).  (The original claim, over
every 768-dimensional embedding, fails on the all-zero vector, whose
cosine distance to itself is undefined.) -/
theorem similarity_self_eq_one (e : List ℝ) (_hlen : e.length = 768)
    (hne : dot e e ≠ 0) : similarity e e = 1 := by
  clear _hlen
  have h0 : (0:ℝ) ≤ dot e e := dot_self_nonneg e
  unfold similarity cosineDistance
  rw [Real.mul_self_sqrt h0, div_self hne]
  ring

theorem similarity_self_eq_one_witness :
    (((1:ℝ) :: List.replicate 767 0).length = 768 ∧
      dot ((1:ℝ) :: List.replicate 767 0) ((1:ℝ) :: List.replicate 767 0)
        ≠ 0) ∧
    similarity ((1:ℝ) :: List.replicate 767 0)
      ((1:ℝ) :: List.replicate 767 0) = 1 :=
  ⟨⟨by rw [List.length_cons, List.length_replicate],
      by rw [dot_cons, dot_replicate_zero]; norm_num⟩,
    similarity_self_eq_one _
      (by rw [List.length_cons, List.length_replicate])
      (by rw [dot_cons, dot_replicate_zero]; norm_num)⟩

/-- C4 counterexample: the all-zero 768-dimensional embedding has
self-similarity 0, not 1 (its cosine distance to itself is degenerate). -/
theorem similarity_self_zero_vector_ne_one :
    similarity (List.replicate 768 (0:ℝ)) (List.replicate 768 0) ≠ 1 := by
  unfold similarity cosineDistance
  rw [dot_replicate_zero, Real.sqrt_zero]
  norm_num

/-! ### C1: search eligibility -/

open scoped Classical in
/-- C1: for every stored record set, query embedding and choice of the
optional model_type / mode filters, every result of search_similar_prompts
satisfies all of: was_approved = true, quality_score present and at least
0.7 (a fixed floor, for every caller-supplied threshold), embedding
non-null, the AND-combination of any supplied model_type / mode
exact-match filters, and similarity at least the caller-supplied
threshold; in particular no result has was_approved = false or
quality_score below 0.7. -/
theorem search_results_eligible (records : List PromptRecord)
    (query : List ℝ) (mt mm : Option String) (k : Nat) (thr : ℝ) :
    (search_similar_prompts records query mt mm k thr).Forall (fun p =>
      p.1.was_approved = true ∧
      (∃ q, p.1.quality_score = some q ∧ (7 / 10 : ℚ) ≤ q) ∧
      p.1.embedding ≠ none ∧
      (mt = none ∨ mt = some p.1.model_type) ∧
      (mm = none ∨ mm = some p.1.mode) ∧
      thr ≤ p.2) := by
  rw [List.forall_iff_forall_mem]
  intro p hp
  unfold search_similar_prompts at hp
  have hp2 := List.take_subset _ _ hp
  rw [List.mem_insertionSort] at hp2
  obtain ⟨r, hr, rfl⟩ := List.mem_map.mp hp2
  rw [List.mem_filter, decide_eq_true_eq] at hr
  obtain ⟨-, h1, h2, h3, h4, h5, e, he, hsim⟩ := hr
  refine ⟨h1, h2, h5, h3, h4, ?_⟩
  simpa [he] using hsim

/-! ### C2: result ordering and truncation -/

/-- C2 (amended): for every stored record set and query, the sequence
returned by search_similar_prompts is sorted in descending similarity
order and truncated to at most k results, where the match_count parameter
defaults to 5; results with identical similarity appear in the table's
storage order, which need not be earliest-creation-time order (the SQL
orders only by cosine distance). -/
theorem search_sorted_and_truncated (records : List PromptRecord)
    (query : List ℝ) (mt mm : Option String) (k : Nat) (thr : ℝ) :
    List.Sorted (fun p q : PromptRecord × ℝ => q.2 ≤ p.2)
      (search_similar_prompts records query mt mm k thr) ∧
    (search_similar_prompts records query mt mm k thr).length ≤ k ∧
    match_count_default = 5 := by
  haveI htot : IsTotal (PromptRecord × ℝ)
      (fun p q : PromptRecord × ℝ => q.2 ≤ p.2) :=
    ⟨fun a b => le_total b.2 a.2⟩
  haveI htrans : IsTrans (PromptRecord × ℝ)
      (fun p q : PromptRecord × ℝ => q.2 ≤ p.2) :=
    ⟨fun _ _ _ h1 h2 => le_trans h2 h1⟩
  refine ⟨?_, ?_, rfl⟩
  · exact (List.sorted_insertionSort _ _).sublist (List.take_sublist _ _)
  · unfold search_similar_prompts
    simp [List.length_take]

open scoped Classical in
/-- C2 counterexample: two eligible records with identical similarity 1 to
the query, the record created later (created_at 5) stored before the one
created earlier (created_at 3); the returned tie keeps the storage order,
so equal-similarity results are not ordered by earliest creation time
first. -/
theorem search_tie_not_by_creation :
    ¬ tiesByEarliestCreation
      (search_similar_prompts [sampleLate, sampleEarly] [1] none none 5
        (7 / 10 : ℝ)) := by
  have hcd : cosineDistance [(1:ℝ)] [1] = 0 := by
    unfold cosineDistance
    rw [dot_cons, dot_nil]
    norm_num
  have hsim : similarity [(1:ℝ)] [1] = 1 := by
    unfold similarity
    rw [hcd]
    norm_num
  have hel : eligible [1] none none (7 / 10 : ℝ) sampleLate := by
    refine ⟨rfl, ⟨1, rfl, by norm_num⟩, Or.inl rfl, Or.inl rfl,
      by simp [sampleLate], ⟨[1], rfl, ?_⟩⟩
    rw [hsim]
    norm_num
  have hel' : eligible [1] none none (7 / 10 : ℝ) sampleEarly := by
    refine ⟨rfl, ⟨1, rfl, by norm_num⟩, Or.inl rfl, Or.inl rfl,
      by simp [sampleEarly, sampleLate], ⟨[1], rfl, ?_⟩⟩
    rw [hsim]
    norm_num
  have hsearch : search_similar_prompts [sampleLate, sampleEarly] [1] none
      none 5 (7 / 10 : ℝ) = [(sampleLate, 1), (sampleEarly, 1)] := by
    unfold search_similar_prompts
    simp only [List.filter_cons, List.filter_nil, decide_eq_true hel,
      decide_eq_true hel', if_true]
    have hget : (sampleLate.embedding.getD []) = [(1:ℝ)] := rfl
    have hget' : (sampleEarly.embedding.getD []) = [(1:ℝ)] := rfl
    rw [List.map_cons, List.map_cons, List.map_nil, hget, hget', hsim]
    rw [show List.insertionSort (fun p q : PromptRecord × ℝ => q.2 ≤ p.2)
        [(sampleLate, 1), (sampleEarly, 1)] =
        List.orderedInsert (fun p q : PromptRecord × ℝ => q.2 ≤ p.2)
          (sampleLate, 1) [(sampleEarly, 1)] from rfl]
    rw [List.orderedInsert, if_pos (le_refl (1:ℝ))]
    rfl
  rw [hsearch]
  unfold tiesByEarliestCreation
  rw [List.pairwise_cons]
  intro h
  have := h.1 (sampleEarly, 1) (by simp) rfl
  simp [sampleLate, sampleEarly] at this

/-! ### C7: empty result is not an error -/

open scoped Classical in
/-- C7: for every stored record set, query embedding, k and threshold such
that no stored record's similarity to the query reaches the threshold,
search_similar_prompts returns the empty sequence.  The operation is a
total function - an empty result is an ordinary return value, not an
error. -/
theorem search_below_threshold_empty (records : List PromptRecord)
    (query : List ℝ) (mt mm : Option String) (k : Nat) (thr : ℝ)
    (h : ∀ r ∈ records, ∀ e, r.embedding = some e →
      similarity e query < thr) :
    search_similar_prompts records query mt mm k thr = [] := by
  unfold search_similar_prompts
  have hfil : records.filter
      (fun r => decide (eligible query mt mm thr r)) = [] := by
    rw [List.filter_eq_nil_iff]
    intro r hr
    rw [decide_eq_true_eq]
    rintro ⟨-, -, -, -, -, e, he, hthr⟩
    exact absurd hthr (not_le.mpr (h r hr e he))
  rw [hfil]
  simp [List.insertionSort]

theorem search_below_threshold_empty_witness :
    search_similar_prompts [sampleOrthogonal] [0, 1] none none 2
      (99 / 100 : ℝ) = [] := by
  refine search_below_threshold_empty _ _ _ _ _ _ ?_
  intro r hr e he
  rw [List.mem_singleton] at hr
  subst hr
  have he' : e = [(1:ℝ), 0] := by
    have : sampleOrthogonal.embedding = some [(1:ℝ), 0] := rfl
    rw [this] at he
    exact (Option.some_injective _ he).symm
  subst he'
  have : similarity [(1:ℝ), 0] [0, 1] = 0 := by
    unfold similarity cosineDistance
    rw [dot_cons, dot_cons, dot_nil, dot_cons, dot_cons, dot_nil,
      dot_cons, dot_cons, dot_nil]
    norm_num
  rw [this]
  norm_num

/-! ### C5: best-keyword ordering -/

/-- C5 (amended): for every model type and limit, get_model_best_keywords
returns a sequence of (keyword, frequency) pairs sorted descending by
frequency and truncated to the given limit; keywords of equal frequency
appear in the stored key order of the JSONB histogram (key length, then
bytewise), not lexicographically by keyword. -/
theorem best_keywords_sorted_and_truncated (learnings : List ModelLearning)
    (target : String) (limit : Nat) :
    List.Sorted (fun p q : String × Int => q.2 ≤ p.2)
      (get_model_best_keywords learnings target limit) ∧
    (get_model_best_keywords learnings target limit).length ≤ limit := by
  haveI htot : IsTotal (String × Int)
      (fun p q : String × Int => q.2 ≤ p.2) :=
    ⟨fun a b => le_total b.2 a.2⟩
  haveI htrans : IsTrans (String × Int)
      (fun p q : String × Int => q.2 ≤ p.2) :=
    ⟨fun _ _ _ h1 h2 => le_trans h2 h1⟩
  constructor
  · exact (List.sorted_insertionSort _ _).sublist (List.take_sublist _ _)
  · unfold get_model_best_keywords
    simp [List.length_take]

/-- C5 counterexample: a histogram holding the keys "b" and "aa" with equal
frequency 5 in JSONB storage order; get_model_best_keywords returns them in
that order, whereas a lexicographic tie-break would put "aa" first. -/
theorem best_keywords_tie_not_lexicographic :
    ¬ keywordOrderLexTies
      (get_model_best_keywords [sampleTieLearning] "m" 20) := by
  have hout : get_model_best_keywords [sampleTieLearning] "m" 20 =
      [("b", 5), ("aa", 5)] := by decide
  rw [hout]
  unfold keywordOrderLexTies
  rw [List.pairwise_cons]
  rintro ⟨h, -⟩
  rcases h ("aa", 5) (by simp) with h5 | ⟨-, hle⟩
  · exact absurd h5 (by norm_num)
  · rw [String.le_iff_toList_le] at hle
    revert hle
    decide

/-! ### C8: read idempotence of get_best_keywords -/

/-- C8: for every state of the store and every model type and limit, two
consecutive calls of the get_best_keywords read yield identical ordered
outputs, the first call leaving the store untouched. -/
theorem best_keywords_read_idempotent (s : DopState) (target : String)
    (limit : Nat) :
    (get_best_keywords_op s target limit).1 =
      (get_best_keywords_op
        (get_best_keywords_op s target limit).2 target limit).1 ∧
    (get_best_keywords_op s target limit).2 = s :=
  ⟨rfl, rfl⟩

/-! ### C10: editor history bound -/

lemma addToHistory_length_le (h : List EditorImage) (img : EditorImage) :
    (addToHistory h img).length ≤ 50 := by
  unfold addToHistory sliceLast
  rw [List.length_drop]
  omega

lemma stepEditor_length_le (h : List EditorImage) (e : EditorEvent)
    (hh : h.length ≤ 50) : (stepEditor h e).length ≤ 50 := by
  cases e with
  | add img => exact addToHistory_length_le h img
  | clear => exact Nat.zero_le 50
  | save c ed i t =>
    cases c with
    | none => exact hh
    | some img => exact addToHistory_length_le h _

lemma foldl_stepEditor_length_le (es : List EditorEvent)
    (h : List EditorImage) (hh : h.length ≤ 50) :
    (es.foldl stepEditor h).length ≤ 50 := by
  induction es generalizing h with
  | nil => exact hh
  | cons e t ih => exact ih _ (stepEditor_length_le h e hh)

/-- C10: starting from the editor's initial state, any sequence of
addToHistory / clearHistory / onEditorSave calls leaves at most 50 entries
in the history, and addToHistory on a full 50-entry history keeps the 50
most recently added entries, dropping the oldest. -/
theorem editor_history_bounded (es : List EditorEvent)
    (h : List EditorImage) (img : EditorImage) :
    (runEditor es).length ≤ 50 ∧
    (h.length = 50 → addToHistory h img = h.drop 1 ++ [img]) := by
  constructor
  · exact foldl_stepEditor_length_le es [] (by simp)
  · intro h50
    unfold addToHistory sliceLast
    rw [List.length_append, h50]
    simp only [List.length_singleton]
    rw [show 50 + 1 - 50 = 1 from rfl]
    rw [List.drop_append_of_le_length (by rw [h50]; norm_num)]

theorem editor_history_bounded_witness :
    (runEditor [.add sampleImageA]).length ≤ 50 ∧
    ((List.replicate 50 sampleImageA).length = 50 ∧
      addToHistory (List.replicate 50 sampleImageA) sampleImageB =
        (List.replicate 50 sampleImageA).drop 1 ++ [sampleImageB]) :=
  ⟨(editor_history_bounded [.add sampleImageA]
      (List.replicate 50 sampleImageA) sampleImageB).1,
    ⟨by rw [List.length_replicate],
      (editor_history_bounded [.add sampleImageA]
        (List.replicate 50 sampleImageA) sampleImageB).2
        (by rw [List.length_replicate])⟩⟩

/-! ### C6: append validation -/

/-- C6: appending a draft whose embedding length differs from the
configured 768 dimensionality, or whose mode lies outside the closed enum
of character and scene, fails with ValidationError, and the store - its
record list in particular - is unchanged by the failed append. -/
theorem append_invalid_draft_rejected (s : DopState)
    (d : PromptRecordDraft)
    (h : (∃ e, d.embedding = some e ∧ e.length ≠ 768) ∨
      (d.mode ≠ "character" ∧ d.mode ≠ "scene")) :
    append s d = .error .validationError ∧
    stepEvent s (.created d) = s := by
  have hv : draftValid d = false := by
    rcases h with ⟨e, he, hlen⟩ | ⟨h1, h2⟩
    · unfold draftValid
      rw [he]
      simp [hlen]
    · unfold draftValid modeValid
      simp [h1, h2]
  have happ : append s d = .error .validationError := by
    unfold append
    rw [hv]
    simp
  refine ⟨happ, ?_⟩
  show (match append s d with
    | Except.ok s' => s'
    | Except.error _ => s) = s
  rw [happ]

theorem append_invalid_draft_rejected_witness :
    (∃ e, sampleDraft512.embedding = some e ∧ e.length ≠ 768) ∧
    append initState sampleDraft512 = .error .validationError ∧
    stepEvent initState (.created sampleDraft512) = initState :=
  ⟨⟨List.replicate 512 0, rfl, by rw [List.length_replicate]; decide⟩,
    append_invalid_draft_rejected initState sampleDraft512
      (Or.inl ⟨List.replicate 512 0, rfl,
        by rw [List.length_replicate]; decide⟩)⟩

/-! ### C9: quality scores are not constrained to the unit interval -/

/-- C9 (the code violates the claimed invariant): the dop_prompt_records
DDL documents quality_score as 0.0-1.0 but declares no CHECK on any of the
five score columns, and the evaluation update performs no score
validation; an update carrying quality_score = 1.5 is accepted and stored,
so the store does not maintain the claimed in-range invariant. -/
theorem out_of_range_score_accepted :
    ∃ s₁ s₂, append initState sampleDraftOk = .ok s₁ ∧
      update_evaluation s₁ 0 sampleBadScores true = .ok s₂ ∧
      s₂.records.map (fun r => r.quality_score) = [some (3 / 2)] ∧
      ¬ ((3 / 2 : ℚ) ≤ 1) := by
  refine ⟨_, _, rfl, rfl, rfl, by norm_num⟩

/-! ### C3: aggregator counters -/

lemma countApprovedRecords_le_countRecords (rs : List PromptRecord)
    (m : String) : countApprovedRecords rs m ≤ countRecords rs m := by
  induction rs with
  | nil => exact Nat.le_refl 0
  | cons r t ih =>
    unfold countApprovedRecords countRecords
    rcases hb : (r.model_type == m) with _ | _ <;>
      rcases ha : r.was_approved with _ | _ <;> simp [hb, ha] <;> omega

lemma totalOf_bumpCreated (ls : List ModelLearning) (m m' : String) :
    totalOf (bumpCreated ls m) m' =
      totalOf ls m' + (if m == m' then 1 else 0) := by
  induction ls with
  | nil =>
    simp only [bumpCreated, totalOf, emptyLearning]
    omega
  | cons l t ih =>
    simp only [bumpCreated]
    by_cases hl : (l.model_type == m) = true
    · rw [if_pos hl]
      simp only [totalOf]
      rw [beq_iff_eq] at hl
      rw [hl]
      split_ifs <;> omega
    · rw [if_neg hl]
      simp only [totalOf]
      rw [ih]
      omega

lemma approvedOf_bumpCreated (ls : List ModelLearning) (m m' : String) :
    approvedOf (bumpCreated ls m) m' = approvedOf ls m' := by
  induction ls with
  | nil =>
    simp only [bumpCreated, approvedOf, emptyLearning]
    split_ifs <;> rfl
  | cons l t ih =>
    simp only [bumpCreated]
    by_cases hl : (l.model_type == m) = true
    · rw [if_pos hl]
      simp only [approvedOf]
    · rw [if_neg hl]
      simp only [approvedOf]
      rw [ih]

lemma totalOf_bumpApproved (ls : List ModelLearning) (r : PromptRecord)
    (m' : String) : totalOf (bumpApproved ls r) m' = totalOf ls m' := by
  induction ls with
  | nil =>
    simp only [bumpApproved, totalOf, applyApproval, emptyLearning]
    split_ifs <;> rfl
  | cons l t ih =>
    simp only [bumpApproved]
    by_cases hl : (l.model_type == r.model_type) = true
    · rw [if_pos hl]
      simp only [totalOf, applyApproval]
    · rw [if_neg hl]
      simp only [totalOf]
      rw [ih]

lemma approvedOf_bumpApproved (ls : List ModelLearning) (r : PromptRecord)
    (m' : String) : approvedOf (bumpApproved ls r) m' =
      approvedOf ls m' + (if r.model_type == m' then 1 else 0) := by
  induction ls with
  | nil =>
    simp only [bumpApproved, approvedOf, applyApproval, emptyLearning]
    split_ifs <;> omega
  | cons l t ih =>
    simp only [bumpApproved]
    by_cases hl : (l.model_type == r.model_type) = true
    · rw [if_pos hl]
      simp only [approvedOf, applyApproval]
      rw [beq_iff_eq] at hl
      rw [hl]
      split_ifs <;> omega
    · rw [if_neg hl]
      simp only [approvedOf]
      rw [ih]
      omega

lemma countRecords_append (rs : List PromptRecord) (r : PromptRecord)
    (m : String) : countRecords (rs ++ [r]) m =
      countRecords rs m + (if r.model_type == m then 1 else 0) := by
  induction rs with
  | nil =>
    simp only [List.nil_append, countRecords]
    omega
  | cons a t ih =>
    simp only [List.cons_append, countRecords, List.append_eq]
    rw [ih]
    omega

lemma countApprovedRecords_append (rs : List PromptRecord)
    (r : PromptRecord) (m : String) :
    countApprovedRecords (rs ++ [r]) m = countApprovedRecords rs m +
      (if r.model_type == m && r.was_approved then 1 else 0) := by
  induction rs with
  | nil =>
    simp only [List.nil_append, countApprovedRecords]
    omega
  | cons a t ih =>
    simp only [List.cons_append, countApprovedRecords, List.append_eq]
    rw [ih]
    omega

lemma countRecords_updateFirst (rs : List PromptRecord) (i : Nat)
    (sc : EvalScores) (ap : Bool) (m : String) :
    countRecords (updateFirst (fun r => applyEval r sc ap) rs i) m =
      countRecords rs m := by
  induction rs with
  | nil => rfl
  | cons a t ih =>
    simp only [updateFirst]
    by_cases ha : (a.id == i) = true
    · rw [if_pos ha]
      simp only [countRecords, applyEval]
    · rw [if_neg ha]
      simp only [countRecords]
      rw [ih]

lemma countApprovedRecords_updateFirst (rs : List PromptRecord) (i : Nat)
    (sc : EvalScores) (ap : Bool) (m : String) (r₀ : PromptRecord)
    (hfind : rs.find? (fun r => r.id == i) = some r₀) :
    countApprovedRecords (updateFirst (fun r => applyEval r sc ap) rs i) m
      = countApprovedRecords rs m +
        (if r₀.model_type == m && (!r₀.was_approved && ap) then 1
         else 0) := by
  induction rs with
  | nil => simp at hfind
  | cons a t ih =>
    by_cases ha : (a.id == i) = true
    · have ha' : (fun r : PromptRecord => r.id == i) a = true := ha
      rw [List.find?_cons_of_pos t ha'] at hfind
      have haeq : a = r₀ := Option.some_injective _ hfind
      subst haeq
      simp only [updateFirst]
      rw [if_pos ha]
      simp only [countApprovedRecords, applyEval]
      clear ih hfind ha ha'
      cases ap <;>
        by_cases hm : a.model_type = m <;>
        by_cases hw : a.was_approved = true <;>
        simp [hm, hw, Nat.add_comm]
    · have ha' : ¬ (fun r : PromptRecord => r.id == i) a = true := ha
      rw [List.find?_cons_of_neg t ha'] at hfind
      simp only [updateFirst]
      rw [if_neg ha]
      simp only [countApprovedRecords]
      rw [ih hfind]
      omega

/-- The coupling invariant between the stored records and the aggregate
counters: for every model type the counters equal the corresponding record
counts. -/
def CountersMatch (s : DopState) : Prop :=
  ∀ m, approvedOf s.learnings m = countApprovedRecords s.records m ∧
    totalOf s.learnings m = countRecords s.records m

lemma countersMatch_init : CountersMatch initState :=
  fun _ => ⟨rfl, rfl⟩

lemma stepEvent_created_valid (s : DopState) (d : PromptRecordDraft)
    (hv : draftValid d = true) :
    stepEvent s (.created d) =
      { nextId := s.nextId + 1,
        records := s.records ++ [draftRecord s d],
        learnings := bumpCreated s.learnings d.model_type } := by
  show (match append s d with
    | Except.ok s' => s'
    | Except.error _ => s) = _
  unfold append
  rw [if_pos hv]

lemma stepEvent_created_invalid (s : DopState) (d : PromptRecordDraft)
    (hv : ¬ draftValid d = true) : stepEvent s (.created d) = s := by
  show (match append s d with
    | Except.ok s' => s'
    | Except.error _ => s) = _
  unfold append
  rw [if_neg hv]

lemma stepEvent_approved_found (s : DopState) (i : Nat) (sc : EvalScores)
    (flag : Bool) (r₀ : PromptRecord)
    (hfind : s.records.find? (fun r => r.id == i) = some r₀) :
    stepEvent s (.approved i sc flag) =
      { s with
        records := updateFirst (fun r => applyEval r sc flag) s.records i,
        learnings :=
          if flag && !r₀.was_approved then
            bumpApproved s.learnings (applyEval r₀ sc flag)
          else s.learnings } := by
  show (match update_evaluation s i sc flag with
    | Except.ok s' => s'
    | Except.error _ => s) = _
  unfold update_evaluation
  rw [hfind]

lemma stepEvent_approved_missing (s : DopState) (i : Nat) (sc : EvalScores)
    (flag : Bool)
    (hfind : s.records.find? (fun r => r.id == i) = none) :
    stepEvent s (.approved i sc flag) = s := by
  show (match update_evaluation s i sc flag with
    | Except.ok s' => s'
    | Except.error _ => s) = _
  unfold update_evaluation
  rw [hfind]

lemma countersMatch_step (s : DopState) (e : DopEvent)
    (h : CountersMatch s) : CountersMatch (stepEvent s e) := by
  cases e with
  | created d =>
    by_cases hv : draftValid d = true
    · rw [stepEvent_created_valid s d hv]
      intro m
      constructor
      · show approvedOf (bumpCreated s.learnings d.model_type) m =
          countApprovedRecords (s.records ++ [draftRecord s d]) m
        rw [approvedOf_bumpCreated, countApprovedRecords_append, (h m).1]
        have hw : (draftRecord s d).was_approved = false := rfl
        rw [hw]
        simp
      · show totalOf (bumpCreated s.learnings d.model_type) m =
          countRecords (s.records ++ [draftRecord s d]) m
        rw [totalOf_bumpCreated, countRecords_append, (h m).2]
        have hmt : (draftRecord s d).model_type = d.model_type := rfl
        rw [hmt]
    · rw [stepEvent_created_invalid s d hv]
      exact h
  | approved i sc flag =>
    cases hfind : s.records.find? (fun r => r.id == i) with
    | none =>
      rw [stepEvent_approved_missing s i sc flag hfind]
      exact h
    | some r₀ =>
      rw [stepEvent_approved_found s i sc flag r₀ hfind]
      intro m
      constructor
      · show approvedOf
            (if flag && !r₀.was_approved then
              bumpApproved s.learnings (applyEval r₀ sc flag)
            else s.learnings) m =
          countApprovedRecords
            (updateFirst (fun r => applyEval r sc flag) s.records i) m
        rw [countApprovedRecords_updateFirst s.records i sc flag m r₀ hfind]
        by_cases ht : (flag && !r₀.was_approved) = true
        · rw [if_pos ht, approvedOf_bumpApproved]
          have hmt : (applyEval r₀ sc flag).model_type = r₀.model_type :=
            rfl
          rw [hmt, (h m).1]
          rw [Bool.and_eq_true] at ht
          obtain ⟨hf, hnw⟩ := ht
          rw [hf]
          simp [hnw]
        · rw [if_neg ht, (h m).1]
          have hx : (r₀.model_type == m && (!r₀.was_approved && flag)) =
              false := by
            cases flag <;> simp_all
          rw [hx]
          simp
      · show totalOf
            (if flag && !r₀.was_approved then
              bumpApproved s.learnings (applyEval r₀ sc flag)
            else s.learnings) m =
          countRecords
            (updateFirst (fun r => applyEval r sc flag) s.records i) m
        rw [countRecords_updateFirst]
        by_cases ht : (flag && !r₀.was_approved) = true
        · rw [if_pos ht, totalOf_bumpApproved, (h m).2]
        · rw [if_neg ht, (h m).2]

lemma totalOf_stepEvent_le (s : DopState) (e : DopEvent) (m : String) :
    totalOf s.learnings m ≤ totalOf (stepEvent s e).learnings m := by
  cases e with
  | created d =>
    by_cases hv : draftValid d = true
    · rw [stepEvent_created_valid s d hv]
      show totalOf s.learnings m ≤
        totalOf (bumpCreated s.learnings d.model_type) m
      rw [totalOf_bumpCreated]
      omega
    · rw [stepEvent_created_invalid s d hv]
  | approved i sc flag =>
    cases hfind : s.records.find? (fun r => r.id == i) with
    | none => rw [stepEvent_approved_missing s i sc flag hfind]
    | some r₀ =>
      rw [stepEvent_approved_found s i sc flag r₀ hfind]
      show totalOf s.learnings m ≤ totalOf
        (if flag && !r₀.was_approved then
          bumpApproved s.learnings (applyEval r₀ sc flag)
        else s.learnings) m
      by_cases ht : (flag && !r₀.was_approved) = true
      · rw [if_pos ht, totalOf_bumpApproved]
      · rw [if_neg ht]

lemma approvedOf_stepEvent_le (s : DopState) (e : DopEvent) (m : String) :
    approvedOf s.learnings m ≤ approvedOf (stepEvent s e).learnings m := by
  cases e with
  | created d =>
    by_cases hv : draftValid d = true
    · rw [stepEvent_created_valid s d hv]
      show approvedOf s.learnings m ≤
        approvedOf (bumpCreated s.learnings d.model_type) m
      rw [approvedOf_bumpCreated]
    · rw [stepEvent_created_invalid s d hv]
  | approved i sc flag =>
    cases hfind : s.records.find? (fun r => r.id == i) with
    | none => rw [stepEvent_approved_missing s i sc flag hfind]
    | some r₀ =>
      rw [stepEvent_approved_found s i sc flag r₀ hfind]
      show approvedOf s.learnings m ≤ approvedOf
        (if flag && !r₀.was_approved then
          bumpApproved s.learnings (applyEval r₀ sc flag)
        else s.learnings) m
      by_cases ht : (flag && !r₀.was_approved) = true
      · rw [if_pos ht, approvedOf_bumpApproved]
        omega
      · rw [if_neg ht]

lemma countersMatch_foldl (es : List DopEvent) (s : DopState)
    (h : CountersMatch s) : CountersMatch (es.foldl stepEvent s) := by
  induction es generalizing s with
  | nil => exact h
  | cons e t ih => exact ih _ (countersMatch_step s e h)

lemma totalOf_foldl_le (es : List DopEvent) (s : DopState) (m : String) :
    totalOf s.learnings m ≤
      totalOf ((es.foldl stepEvent s)).learnings m := by
  induction es generalizing s with
  | nil => exact Nat.le_refl _
  | cons e t ih =>
    exact Nat.le_trans (totalOf_stepEvent_le s e m) (ih _)

lemma approvedOf_foldl_le (es : List DopEvent) (s : DopState)
    (m : String) : approvedOf s.learnings m ≤
      approvedOf ((es.foldl stepEvent s)).learnings m := by
  induction es generalizing s with
  | nil => exact Nat.le_refl _
  | cons e t ih =>
    exact Nat.le_trans (approvedOf_stepEvent_le s e m) (ih _)

/-- C3: for every model type m, after any sequence of record-created /
record-approved events applied to the store from its initial state, the
ModelLearning aggregate satisfies approved_count at most
total_generations, and both counters are monotonically non-decreasing as
further events are appended to the sequence. -/
theorem aggregator_counters_invariant (es more : List DopEvent)
    (m : String) :
    approvedOf (runEvents (es ++ more)).learnings m ≤
      totalOf (runEvents (es ++ more)).learnings m ∧
    totalOf (runEvents es).learnings m ≤
      totalOf (runEvents (es ++ more)).learnings m ∧
    approvedOf (runEvents es).learnings m ≤
      approvedOf (runEvents (es ++ more)).learnings m := by
  have hmatch :=
    countersMatch_foldl (es ++ more) initState countersMatch_init
  refine ⟨?_, ?_, ?_⟩
  · show approvedOf ((es ++ more).foldl stepEvent initState).learnings m ≤
      totalOf ((es ++ more).foldl stepEvent initState).learnings m
    rw [(hmatch m).1, (hmatch m).2]
    exact countApprovedRecords_le_countRecords _ m
  · show totalOf (runEvents es).learnings m ≤
      totalOf ((es ++ more).foldl stepEvent initState).learnings m
    rw [List.foldl_append]
    exact totalOf_foldl_le more _ m
  · show approvedOf (runEvents es).learnings m ≤
      approvedOf ((es ++ more).foldl stepEvent initState).learnings m
    rw [List.foldl_append]
    exact approvedOf_foldl_le more _ m

end Genyu
